import Mathlib

/-!
Verification of the gitcrumbs VS Code extension core: the snapshot-table and
diff-table parsers, the timeline and diff state machines, the CLI runner and
the tracking-process supervisor, shallowly embedded from the TypeScript
sources (ui/timelineTree.ts, ui/diffTree.ts, infra/cli.ts, infra/trackRunner.ts).

Strings are modelled as `List Char` (`String.data`); the JavaScript regular
expressions used by the parsers are embedded as deterministic character-list
functions that implement the same leftmost / lazy-group matching semantics.
-/

namespace Gitcrumbs

/-- JavaScript regex whitespace class `\s` (also the set used by
`String.prototype.trim`): ASCII whitespace plus the Unicode space
characters. -/
def jsWs (c : Char) : Bool :=
  c = ' ' || c = '\t' || c = '\n' || c = '\x0b' || c = '\x0c' || c = '\r' ||
  c = '\u00A0' || c = '\u1680' ||
  ('\u2000' <= c && c <= '\u200A') ||
  c = '\u2028' || c = '\u2029' || c = '\u202F' || c = '\u205F' ||
  c = '\u3000' || c = '\uFEFF'

/-- The vertical border glyphs recognised by the parsers: the regex class
`[│|]` (ASCII bar and Unicode box-drawing bar). -/
def isBar (c : Char) : Bool := c = '|' || c = '│'

/-- `String.prototype.trim`: drop JS whitespace from both ends. -/
def trimCL (l : List Char) : List Char :=
  ((l.dropWhile jsWs).reverse.dropWhile jsWs).reverse

/-- `replace(/\s+/g, " ")`: collapse every maximal run of whitespace into a
single space.  The flag records whether the previous character was part of a
whitespace run already replaced. -/
def collapseWsAux : Bool → List Char → List Char
  | _, [] => []
  | prevWs, c :: rest =>
    if jsWs c then
      if prevWs then collapseWsAux true rest
      else ' ' :: collapseWsAux true rest
    else c :: collapseWsAux false rest

def collapseWs (l : List Char) : List Char := collapseWsAux false l

/-- `text.split(/\r?\n/)`: split on newlines, where a newline swallows an
immediately preceding carriage return.  `acc` holds the current segment
reversed. -/
def splitLinesAux : List Char → List Char → List (List Char)
  | acc, [] => [acc.reverse]
  | acc, c :: rest =>
    if c = '\n' then
      (match acc with
       | '\r' :: a => a.reverse
       | _ => acc.reverse) :: splitLinesAux [] rest
    else splitLinesAux (c :: acc) rest

def splitLinesCL (l : List Char) : List (List Char) := splitLinesAux [] l

/-- `cell.split(",")`: split on every comma, keeping empty segments. -/
def splitCommaAux : List Char → List Char → List (List Char)
  | acc, [] => [acc.reverse]
  | acc, c :: rest =>
    if c = ',' then acc.reverse :: splitCommaAux [] rest
    else splitCommaAux (c :: acc) rest

def splitCommaCL (l : List Char) : List (List Char) := splitCommaAux [] l

/-- Strip a literal pattern from the front of a string. -/
def stripPfx : List Char → List Char → Option (List Char)
  | [], s => some s
  | _ :: _, [] => none
  | p :: ps, c :: cs => if c = p then stripPfx ps cs else none

/-- Case-insensitive variant (regex `/i` flag), by lower-casing both sides. -/
def stripPfxCI : List Char → List Char → Option (List Char)
  | [], s => some s
  | _ :: _, [] => none
  | p :: ps, c :: cs => if c.toLower = p.toLower then stripPfxCI ps cs else none

/-- Does `pat` occur at the front of `s`?  (`String.prototype.startsWith`.) -/
def hasPfx : List Char → List Char → Bool
  | [], _ => true
  | _ :: _, [] => false
  | p :: ps, c :: cs => p = c && hasPfx ps cs

/-- `s.includes(pat)`: substring containment. -/
def containsSub (pat : List Char) : List Char → Bool
  | [] => pat.isEmpty
  | l@(_ :: rest) => hasPfx pat l || containsSub pat rest

/-- Regex `^\d+$` on a cell: nonempty and all decimal digits. -/
def isDigitsCL (l : List Char) : Bool := !l.isEmpty && l.all Char.isDigit

/-- `Number(s)` on a string of decimal digits. -/
def natOfDigits (l : List Char) : Nat :=
  l.foldl (fun n c => n * 10 + (c.toNat - '0'.toNat)) 0


/-! ## The snapshot-table parser (`TimelineTreeView.parseTimelineFromCli`)

Embeds the 6-column row regex
`^\s*[|]\s*(.*?)\s*[|]\s*(.*?)\s*[|]\s*(.*?)\s*[|]\s*(.*?)\s*[|]\s*(.*?)\s*[|]\s*(.*?)\s*[|]\s*$`
(`[|]` standing for the class of both bar glyphs) and the line-oriented
accumulation loop of `ui/timelineTree.ts`. -/

/-- One lazy cell of a row regex: the content up to the next border bar (the
lazy group `(.*?)` stops at the first bar), and the input after that bar;
`none` when no bar remains. -/
def takeCell : List Char → Option (List Char × List Char)
  | [] => none
  | c :: cs =>
    if isBar c then some ([], cs)
    else
      match takeCell cs with
      | some (cell, rest) => some (c :: cell, rest)
      | none => none

/-- The final cell: content up to the earliest bar that is followed only by
whitespace (the regex tail `(.*?)\s*[|]\s*$`); bars before that point belong
to the cell. -/
def lastCell : List Char → Option (List Char)
  | [] => none
  | c :: cs =>
    if isBar c && cs.all jsWs then some []
    else
      match lastCell cs with
      | some cell => some (c :: cell)
      | none => none

/-- `grab6`: split one visual line into its six trimmed cells, or `none` when
the line does not have the shape of a 6-column bordered row. -/
def grab6 (l : List Char) :
    Option (List Char × List Char × List Char × List Char × List Char × List Char) :=
  match l.dropWhile jsWs with
  | [] => none
  | c :: rest =>
    if isBar c then
      (takeCell rest).bind fun p1 =>
      (takeCell p1.2).bind fun p2 =>
      (takeCell p2.2).bind fun p3 =>
      (takeCell p3.2).bind fun p4 =>
      (takeCell p4.2).bind fun p5 =>
      (lastCell p5.2).map fun c6 =>
        (trimCL p1.1, trimCL p2.1, trimCL p3.1, trimCL p4.1, trimCL p5.1, trimCL c6)
    else none

/-- The line filter `/^\s*[|]/.test(l)`: keep only content lines that start
with a vertical border glyph. -/
def startsWithBar (l : List Char) : Bool :=
  match l.dropWhile jsWs with
  | c :: _ => isBar c
  | [] => false

/-- A parsed snapshot record (`SnapshotRow` in `ui/timelineTree.ts`). -/
structure SnapshotRow where
  id : Nat
  label : Option String
  created_at : String
  branch : Option String
  summary : Option String
  restored_from_snapshot_id : Option Nat
deriving DecidableEq, Repr

/-- The row-in-progress accumulator (`Building` in `ui/timelineTree.ts`). -/
structure Building where
  id : Nat
  label : Option String
  createdDateTime : Option String
  branchParts : List String
  summaryParts : List String
  resumed : Option Nat
deriving DecidableEq, Repr, Inhabited

/-- Seed a new accumulator from the six cells of a new logical row.  In the
source both branches of the `looksDateTime` test assign `c3`, so a nonempty
third cell always becomes the created field. -/
def seed (c1 c2 c3 c4 c5 c6 : List Char) : Building :=
  { id := natOfDigits c1
    label := if c2.isEmpty then none else some (String.mk c2)
    createdDateTime := if c3.isEmpty then none else some (String.mk c3)
    branchParts := if c4.isEmpty then [] else [String.mk c4]
    summaryParts := if c5.isEmpty then [] else [String.mk c5]
    resumed := if isDigitsCL c6 then some (natOfDigits c6) else none }

/-- Fold one continuation line into the accumulator (the label cell is not
consulted on continuation lines). -/
def contin (b : Building) (c3 c4 c5 c6 : List Char) : Building :=
  { b with
    createdDateTime :=
      if !c3.isEmpty && b.createdDateTime.isNone then some (String.mk c3)
      else b.createdDateTime
    branchParts := b.branchParts ++ if c4.isEmpty then [] else [String.mk c4]
    summaryParts := b.summaryParts ++ if c5.isEmpty then [] else [String.mk c5]
    resumed := if isDigitsCL c6 then some (natOfDigits c6) else b.resumed }

/-- Finalize ("flush") the accumulator into a record: fragments are joined
with single spaces, the summary additionally collapses internal whitespace,
and an empty joined string becomes an absent field. -/
def finalize (b : Building) : SnapshotRow :=
  { id := b.id
    label := b.label
    created_at := b.createdDateTime.getD ""
    branch :=
      let s := trimCL (String.intercalate " " b.branchParts).data
      if s.isEmpty then none else some (String.mk s)
    summary :=
      let s := trimCL (collapseWs (String.intercalate " " b.summaryParts).data)
      if s.isEmpty then none else some (String.mk s)
    restored_from_snapshot_id := b.resumed }

/-- Effect of one visual line on the accumulator when it is a continuation
line of the current row. -/
def stepCont (b : Building) (l : List Char) : Building :=
  match grab6 l with
  | some (_, _, c3, c4, c5, c6) => contin b c3 c4 c5 c6
  | none => b

def flushOut : Option Building → List SnapshotRow
  | none => []
  | some b => [finalize b]

/-- The accumulation loop of `parseTimelineFromCli`: lines whose cell split
fails are skipped; a line whose first cell is all digits flushes the current
row and seeds a new one; any other line is folded into the row in progress
(and dropped when there is none).  The final accumulator is flushed at end of
input. -/
def processLines : Option Building → List (List Char) → List SnapshotRow
  | cur, [] => flushOut cur
  | cur, l :: ls =>
    match grab6 l with
    | none => processLines cur ls
    | some (c1, c2, c3, c4, c5, c6) =>
      if isDigitsCL c1 then
        flushOut cur ++ processLines (some (seed c1 c2 c3 c4 c5 c6)) ls
      else
        match cur with
        | none => processLines none ls
        | some b => processLines (some (contin b c3 c4 c5 c6)) ls

/-- `TimelineTreeView.parseTimelineFromCli` (ui/timelineTree.ts). -/
def parseTimelineFromCli (text : String) : List SnapshotRow :=
  processLines none ((splitLinesCL text.data).filter startsWithBar)

/-! ## `TimelineTreeView.parseCurrentIdFromStatus` -/

/-- Try the pattern `Cursor snapshot id:\s*(\d+)` (case-insensitively) at one
start position. -/
def matchCursorAt (l : List Char) : Option Nat :=
  match stripPfxCI "Cursor snapshot id:".data l with
  | none => none
  | some r =>
    let ds := (r.dropWhile jsWs).takeWhile Char.isDigit
    if ds.isEmpty then none else some (natOfDigits ds)

/-- Leftmost match of the cursor pattern anywhere in the text. -/
def firstCursorMatch : List Char → Option Nat
  | [] => none
  | l@(_ :: rest) =>
    match matchCursorAt l with
    | some n => some n
    | none => firstCursorMatch rest

def parseCurrentIdFromStatus (text : String) : Option Nat :=
  firstCursorMatch text.data


/-! ## ANSI stripping (`DiffTreeView.stripAnsi`): `replace(/\x1B\[[0-9;]*m/g, "")` -/

/-- After an ESC character: match `\[[0-9;]*m` greedily and return the rest of
the input, or `none` when the escape-sequence tail is not present. -/
def matchAnsiTail : List Char → Option (List Char)
  | '[' :: l =>
    match l.dropWhile (fun c => c.isDigit || c = ';') with
    | 'm' :: r => some r
    | _ => none
  | _ => none

/-- Remove every match of `\x1B\[[0-9;]*m`, scanning left to right.  The fuel
argument (initialised to the input length, an upper bound on the number of
steps since every step consumes at least one character) keeps the recursion
structural. -/
def stripAnsiAux : Nat → List Char → List Char
  | 0, l => l
  | _ + 1, [] => []
  | fuel + 1, c :: rest =>
    if c = '\x1B' then
      match matchAnsiTail rest with
      | some r => stripAnsiAux fuel r
      | none => c :: stripAnsiAux fuel rest
    else c :: stripAnsiAux fuel rest

def stripAnsiCL (l : List Char) : List Char := stripAnsiAux l.length l

/-- `DiffTreeView.stripAnsi` (ui/diffTree.ts). -/
def stripAnsi (s : String) : String := String.mk (stripAnsiCL s.data)

/-! ## The diff-table parser (`DiffTreeView.parseGitcrumbsDiff`)

Embeds the row regex
`^\s*[|]\s*(Added|Deleted|Modified)\s*[|]\s*(\d+)\s*[|]\s*(.*?)\s*[|]?\s*$`
and the per-row file-list expansion of `ui/diffTree.ts`. -/

/-- Change kind (`type Kind = "A" | "M" | "D"`). -/
inductive Kind
  | A
  | M
  | D
deriving DecidableEq, Repr

/-- A categorized change (`type Change = \x7b path: string; kind: Kind \x7d`). -/
structure Change where
  path : String
  kind : Kind
deriving DecidableEq, Repr

/-- The three category labels of the diff table. -/
inductive DiffCat
  | added
  | deleted
  | modified
deriving DecidableEq, Repr

def catLabel : DiffCat → String
  | .added => "Added"
  | .deleted => "Deleted"
  | .modified => "Modified"

/-- `toKind` (ui/diffTree.ts): category label to change kind. -/
def toKind : DiffCat → Kind
  | .added => .A
  | .deleted => .D
  | .modified => .M

/-- The alternation `(Added|Deleted|Modified)` at the current position. -/
def matchCat (l : List Char) : Option (DiffCat × List Char) :=
  match stripPfx "Added".data l with
  | some r => some (.added, r)
  | none =>
    match stripPfx "Deleted".data l with
    | some r => some (.deleted, r)
    | none =>
      match stripPfx "Modified".data l with
      | some r => some (.modified, r)
      | none => none

/-- The lazy tail `(.*?)\s*[|]?\s*$`: the third capture is the input minus the
longest suffix consisting of whitespace, at most one bar, and whitespace. -/
def stripTailWsBarWs (r : List Char) : List Char :=
  match r.reverse.dropWhile jsWs with
  | c :: r2 => if isBar c then (r2.dropWhile jsWs).reverse else (c :: r2).reverse
  | [] => []

/-- Match the diff row regex against one line, returning the category, the
digits of the count cell, and the raw third capture. -/
def diffRowMatch (l : List Char) : Option (DiffCat × List Char × List Char) :=
  match l.dropWhile jsWs with
  | [] => none
  | c :: rest =>
    if isBar c then
      match matchCat (rest.dropWhile jsWs) with
      | none => none
      | some (cat, r1) =>
        match r1.dropWhile jsWs with
        | [] => none
        | b :: r3 =>
          if isBar b then
            let r4 := r3.dropWhile jsWs
            let digits := r4.takeWhile Char.isDigit
            if digits.isEmpty then none
            else
              match (r4.dropWhile Char.isDigit).dropWhile jsWs with
              | [] => none
              | b2 :: r6 =>
                if isBar b2 then some (cat, digits, stripTailWsBarWs r6)
                else none
          else none
    else none

/-- The body of the per-line loop of `parseGitcrumbsDiff`: a matching row
whose count is zero, or whose trimmed file cell is empty or the literal
`(none)` placeholder, contributes nothing; otherwise the file cell is split
on commas, each piece trimmed, empty pieces dropped, and each remaining name
becomes one change carrying the kind of the row. -/
def diffLineChanges (l : List Char) : List Change :=
  match diffRowMatch l with
  | none => []
  | some (cat, digits, g3) =>
    let count := natOfDigits digits
    let filesCell := trimCL g3
    if count = 0 || filesCell.isEmpty || filesCell = "(none)".data then []
    else
      (((splitCommaCL filesCell).map trimCL).filter (fun p => !p.isEmpty)).map
        (fun p => { path := String.mk p, kind := toKind cat })

/-- `DiffTreeView.parseGitcrumbsDiff` (ui/diffTree.ts). -/
def parseGitcrumbsDiff (text : String) : List Change :=
  ((splitLinesCL text.data).map diffLineChanges).flatten


/-! ## CommandRunner (`infra/cli.ts`) -/

/-- `CliResult` (infra/cli.ts): exit code, stdout and stderr of a completed
invocation. -/
structure CliResult where
  code : Int
  stdout : String
  stderr : String
deriving DecidableEq, Repr

/-- How a spawned child process can end: the `close` event with an exit code
(`null` modelled as `none`), or the `error` event when the binary cannot be
spawned. -/
inductive SpawnOutcome
  | closed (code : Option Int) (stdout stderr : String)
  | spawnError
deriving DecidableEq, Repr

/-- `Cli.runRaw` (infra/cli.ts): the promise resolves from the `close`
handler with `code ?? 0`, and from the `error` handler with exit code 127,
empty stdout and a descriptive stderr. -/
def runRawModel (bin : String) : SpawnOutcome → CliResult
  | .closed c out err => { code := c.getD 0, stdout := out, stderr := err }
  | .spawnError => { code := 127, stdout := "", stderr := "Failed to run " ++ bin }

/-- Observable behaviour of one `Cli.run` call. -/
inductive RunBehavior
  | resolves (r : CliResult)
  | unhandledError
deriving DecidableEq, Repr

/-- `Cli.run` (infra/cli.ts): only a `close` handler is registered, so a
spawn failure emits an `error` event with no listener — an unhandled
exception — and the promise is never resolved with a 127 result. -/
def runModel : SpawnOutcome → RunBehavior
  | .closed c out err => .resolves { code := c.getD 0, stdout := out, stderr := err }
  | .spawnError => .unhandledError

/-! ## TimelineState (`TimelineTreeView.refresh`, ui/timelineTree.ts) -/

/-- The published timeline state: the snapshot list and the cursor id. -/
structure TimelineSt where
  snapshots : List SnapshotRow
  currentId : Option Nat
deriving DecidableEq, Repr

def emptyTimeline : TimelineSt := { snapshots := [], currentId := none }

/-- Stable insertion into a list kept in descending id order: the new element
goes in front of the first strictly smaller id, after any equal ids. -/
def insertDesc (x : SnapshotRow) : List SnapshotRow → List SnapshotRow
  | [] => [x]
  | y :: ys => if y.id < x.id then x :: y :: ys else y :: insertDesc x ys

/-- `snapshots.sort((a, b) => b.id - a.id)`: a stable sort by id descending
(ECMAScript array sort is stable, so any stable sort realises it). -/
def sortByIdDesc : List SnapshotRow → List SnapshotRow
  | [] => []
  | x :: xs => insertDesc x (sortByIdDesc xs)

/-- `TimelineTreeView.refresh`.  The two runner invocations are passed in as
`Except` values: an `error` stands for an exception thrown during that call,
and JavaScript truthiness makes the empty repository path count as
unconfigured;
which the surrounding `try/catch` converts into the reset-to-empty state, so
the model is a total function and no exception propagates.  `prev` is the
state before the call; it is never consulted, which is exactly the
no-stale-retention behaviour. -/
def refresh (_prev : TimelineSt) (repo : Option String)
    (timelineRes statusRes : Except String CliResult) : TimelineSt :=
  match repo with
  | none => emptyTimeline
  | some rp =>
    if rp = "" then emptyTimeline
    else
    match timelineRes with
    | .error _ => emptyTimeline
    | .ok tr =>
      if tr.code ≠ 0 then emptyTimeline
      else
        match statusRes with
        | .error _ => emptyTimeline
        | .ok sr =>
          { snapshots := sortByIdDesc (parseTimelineFromCli tr.stdout)
            currentId := parseCurrentIdFromStatus sr.stdout }

/-! ## DiffState (`DiffTreeView`, ui/diffTree.ts) -/

/-- The fields of `DiffTreeView` that make up the diff state. -/
structure DiffSt where
  a : Option Nat
  b : Option Nat
  changes : List Change
  loading : Bool
  loadKey : Option String
deriving DecidableEq, Repr

/-- The composite key of a pair: the template literal `a:b` with the ids
printed in decimal. -/
def diffKey (a b : Nat) : String := Nat.repr a ++ ":" ++ Nat.repr b

/-- What the synchronous prefix of one `reload()` call does. -/
inductive ReloadAction
  | noop
  | cleared
  | issue (key : String) (a b : Nat)
deriving DecidableEq, Repr

/-- The synchronous prefix of `DiffTreeView.reload` (up to the `await`):
JavaScript truthiness makes both `undefined` and `0` count as an unset
endpoint, and an empty repository path counts as unconfigured.  The unset
branch clears `changes` and `loadKey` without running anything; the
deduplication branch absorbs the call when a reload for the same key is in
flight; otherwise the state is marked loading for the key and the diff
command is issued. -/
def reloadStart (s : DiffSt) (repo : Option String) : DiffSt × ReloadAction :=
  match s.a, s.b with
  | some a, some b =>
    if a = 0 || b = 0 then
      ({ s with changes := [], loadKey := none }, .cleared)
    else
      match repo with
      | none => ({ s with changes := [], loadKey := none }, .cleared)
      | some rp =>
        if rp = "" then ({ s with changes := [], loadKey := none }, .cleared)
        else
          let key := diffKey a b
          if s.loading && s.loadKey = some key then (s, .noop)
          else ({ s with loading := true, loadKey := some key }, .issue key a b)
  | _, _ => ({ s with changes := [], loadKey := none }, .cleared)

/-- The continuation of `DiffTreeView.reload` after the awaited diff command
returns: loading is cleared, a nonzero exit empties `changes`, and a zero
exit replaces `changes` with the parsed, ANSI-stripped output — with no
comparison of the completed key against the current key. -/
def reloadFinish (s : DiffSt) (res : CliResult) : DiffSt :=
  if res.code ≠ 0 then { s with loading := false, changes := [] }
  else
    { s with
      loading := false
      changes := parseGitcrumbsDiff (stripAnsi res.stdout) }

/-- `DiffTreeView.clearSelection`. -/
def clearSelection (_s : DiffSt) : DiffSt :=
  { a := none, b := none, changes := [], loading := false, loadKey := none }

/-- The dynamic argument accepted by `setA`/`setB`: `null`/`undefined`, an
object with a numeric `snapshotId` field, an object with a numeric `id`
field, a raw number, or anything else. -/
inductive ItemInput
  | nullish
  | withSnapshotId (n : Nat)
  | withId (n : Nat)
  | rawNumber (n : Nat)
  | other
deriving DecidableEq, Repr

/-- `DiffTreeView.coerceId`. -/
def coerceId : ItemInput → Option Nat
  | .nullish => none
  | .withSnapshotId n => some n
  | .withId n => some n
  | .rawNumber n => some n
  | .other => none

/-- `DiffTreeView.setA`: assign the coerced id and trigger a reload. -/
def setA (s : DiffSt) (item : ItemInput) (repo : Option String) :
    DiffSt × ReloadAction :=
  reloadStart { s with a := coerceId item } repo

/-- `DiffTreeView.setB`: assign the coerced id and trigger a reload. -/
def setB (s : DiffSt) (item : ItemInput) (repo : Option String) :
    DiffSt × ReloadAction :=
  reloadStart { s with b := coerceId item } repo

/-! ## TrackSupervisor (`TrackRunner.start`, infra/trackRunner.ts) -/

def sentinelText : String := "Snapshot created:"

/-- The stdout `data` handler of `TrackRunner.start`: each data chunk is
stringified, trimmed, and tested once with `includes`, so one chunk fires at
most one snapshot-created event no matter how many sentinel lines it holds. -/
def chunkFires (d : String) : Bool :=
  containsSub sentinelText.data (trimCL d.data)

/-- Number of snapshot-created events the handler emits for a stream of data
chunks. -/
def trackEventCount (chunks : List String) : Nat :=
  (chunks.filter chunkFires).length

/-- Number of sentinel-bearing lines in the concatenated stream — what the
claim prescribes, independent of chunk boundaries. -/
def sentinelLineCount (chunks : List String) : Nat :=
  ((splitLinesCL (String.join chunks).data).filter
    (fun l => containsSub sentinelText.data l)).length


/-! ## Well-formed snapshot tables

A logical row of a well-formed table is one visual first line whose first
cell is all digits, followed by continuation lines whose first cells are not,
all of them splitting into six cells. -/

structure LogicalRow where
  firstLine : List Char
  contLines : List (List Char)

def rowLines (r : LogicalRow) : List (List Char) := r.firstLine :: r.contLines

/-- Well-formedness of one logical row, decidably. -/
def rowWFb (r : LogicalRow) : Bool :=
  (match grab6 r.firstLine with
   | some (c1, _, _, _, _, _) => isDigitsCL c1
   | none => false) &&
  r.contLines.all fun l =>
    match grab6 l with
    | some (c1, _, _, _, _, _) => !isDigitsCL c1
    | none => false

/-- The integer in the first cell of a logical row. -/
def rowIdN (r : LogicalRow) : Nat :=
  match grab6 r.firstLine with
  | some (c1, _, _, _, _, _) => natOfDigits c1
  | none => 0

/-- The accumulator seeded from a new-row line. -/
def seedLine (l : List Char) : Building :=
  match grab6 l with
  | some (c1, c2, c3, c4, c5, c6) => seed c1 c2 c3 c4 c5 c6
  | none => default

/-- The record a well-formed logical row parses to. -/
def buildRow (r : LogicalRow) : SnapshotRow :=
  finalize (r.contLines.foldl stepCont (seedLine r.firstLine))

/-! ## Rendering of one diff-table row, for stating the row contract -/

/-- A canonically rendered diff-table row: category, count digits and the
file-list cell between border bars. -/
def renderDiffRow (cat : DiffCat) (digits : List Char) (cell : List Char) :
    List Char :=
  '│' :: (catLabel cat).data ++ '│' :: digits ++ '│' :: cell ++ ['│']

/-- The contribution the claim prescribes for a row: nothing when the count
is zero or the trimmed file cell is empty or the placeholder, else one change
per nonempty trimmed comma-separated name. -/
def rowContribution (cat : DiffCat) (digits : List Char) (cell : List Char) :
    List Change :=
  if natOfDigits digits = 0 || (trimCL cell).isEmpty || trimCL cell = "(none)".data
  then []
  else
    (((splitCommaCL (trimCL cell)).map trimCL).filter (fun p => !p.isEmpty)).map
      (fun p => { path := String.mk p, kind := toKind cat })

/-! ## Concrete inputs used by the counterexample and witness theorems -/

/-- A colored timeline line as the tool would emit it with ANSI sequences. -/
def escapedTimeline : String :=
  "\x1B[31m│ 1 │ x │ 2025-01-01 00:00:00 │ main │ s │ │\x1B[0m"

/-- A two-row snapshot table whose second row wraps its summary onto a
continuation line. -/
def wfTableText : String :=
  "│ 2 │ two │ 2025-01-02 03:04:05 │ main │ hello │ │\n│ 1 │ one │ 2025-01-01 00:00:00 │ main │ wor │ │\n│ │ │ │ │ ld │ │"

def wfTableRows : List LogicalRow :=
  [ { firstLine := "│ 2 │ two │ 2025-01-02 03:04:05 │ main │ hello │ │".data
      contLines := [] }
  , { firstLine := "│ 1 │ one │ 2025-01-01 00:00:00 │ main │ wor │ │".data
      contLines := ["│ │ │ │ │ ld │ │".data] } ]

/-- One stdout data chunk carrying two sentinel lines. -/
def twoSentinelChunk : String := "Snapshot created: #1\nSnapshot created: #2"

/-- A diff state with both endpoints selected and a reload in flight for the
pair (1, 2). -/
def inFlightSt : DiffSt :=
  { a := some 1, b := some 2, changes := [{ path := "f.txt", kind := .M }]
    loading := true, loadKey := some "1:2" }


/-! ## Supporting lemmas -/

theorem isDigit_not_jsWs (c : Char) (h : c.isDigit = true) : jsWs c = false := by
  simp only [Char.isDigit, Bool.and_eq_true, decide_eq_true_eq, ge_iff_le] at h
  obtain ⟨h1, h2⟩ := h
  rw [UInt32.le_def, BitVec.le_def] at h1 h2
  have e1 : (UInt32.toBitVec 48).toNat = 48 := rfl
  have e2 : (UInt32.toBitVec 57).toNat = 57 := rfl
  have e3 : (' ' : Char).val.toNat = 32 := rfl
  have e4 : ('\t' : Char).val.toNat = 9 := rfl
  have e5 : ('\n' : Char).val.toNat = 10 := rfl
  have e6 : ('\x0b' : Char).val.toNat = 11 := rfl
  have e7 : ('\x0c' : Char).val.toNat = 12 := rfl
  have e8 : ('\x0d' : Char).val.toNat = 13 := rfl
  have e9 : (' ' : Char).val.toNat = 160 := rfl
  have e10 : (' ' : Char).val.toNat = 5760 := rfl
  have e11 : (' ' : Char).val.toBitVec.toNat = 8192 := rfl
  have e12 : (' ' : Char).val.toBitVec.toNat = 8202 := rfl
  have e13 : (' ' : Char).val.toNat = 8232 := rfl
  have e14 : (' ' : Char).val.toNat = 8233 := rfl
  have e15 : (' ' : Char).val.toNat = 8239 := rfl
  have e16 : (' ' : Char).val.toNat = 8287 := rfl
  have e17 : ('　' : Char).val.toNat = 12288 := rfl
  have e18 : ('﻿' : Char).val.toNat = 65279 := rfl
  have e19 : c.val.toBitVec.toNat = c.val.toNat := rfl
  simp only [jsWs, Bool.or_eq_false_iff, Bool.and_eq_false_iff,
    decide_eq_false_iff_not, Char.ext_iff, Char.le_def,
    UInt32.le_def, BitVec.le_def, UInt32.ext_iff]
  omega

theorem stripPfx_append (p s : List Char) : stripPfx p (p ++ s) = some s := by
  induction p with
  | nil => rfl
  | cons c cs ih => simp [stripPfx, ih]

theorem matchCat_label (cat : DiffCat) (x : List Char) :
    matchCat ((catLabel cat).data ++ x) = some (cat, x) := by
  cases cat <;> simp [matchCat, catLabel, stripPfx, stripPfx_append]

theorem dropWhile_jsWs_bar (x : List Char) :
    List.dropWhile jsWs ('│' :: x) = '│' :: x := by
  rw [List.dropWhile_cons]
  simp [show jsWs '│' = false from rfl]

theorem takeWhile_digits_bar (ds y : List Char) (h : ds.all Char.isDigit = true) :
    (ds ++ '│' :: y).takeWhile Char.isDigit = ds := by
  induction ds with
  | nil => simp [List.takeWhile_cons, show Char.isDigit '│' = false from rfl]
  | cons d ds ih =>
    simp only [List.all_cons, Bool.and_eq_true] at h
    simp [List.takeWhile_cons, h.1, ih h.2]

theorem dropWhile_digits_bar (ds y : List Char) (h : ds.all Char.isDigit = true) :
    (ds ++ '│' :: y).dropWhile Char.isDigit = '│' :: y := by
  induction ds with
  | nil => simp [List.dropWhile_cons, show Char.isDigit '│' = false from rfl]
  | cons d ds ih =>
    simp only [List.all_cons, Bool.and_eq_true] at h
    simp [List.dropWhile_cons, h.1, ih h.2]

theorem dropWhile_jsWs_digits (ds y : List Char) (hne : ds ≠ [])
    (h : ds.all Char.isDigit = true) :
    List.dropWhile jsWs (ds ++ y) = ds ++ y := by
  rcases ds with _ | ⟨d, ds⟩
  · exact absurd rfl hne
  · simp only [List.all_cons, Bool.and_eq_true] at h
    simp [List.dropWhile_cons, isDigit_not_jsWs d h.1]

/-- Drop trailing whitespace. -/
theorem dropTrailing_cons (p : Char → Bool) (c : Char) (l : List Char) :
    ((c :: l).reverse.dropWhile p).reverse =
      if (l.reverse.dropWhile p).isEmpty && p c then []
      else c :: (l.reverse.dropWhile p).reverse := by
  rw [List.reverse_cons, List.dropWhile_append]
  by_cases he : (l.reverse.dropWhile p).isEmpty
  · rw [List.isEmpty_iff] at he
    by_cases hc : p c <;> simp [he, hc, List.dropWhile_cons]
  · simp [he]

theorem dropWhile_idem (p : Char → Bool) (l : List Char) :
    (l.dropWhile p).dropWhile p = l.dropWhile p := by
  induction l with
  | nil => rfl
  | cons c l ih =>
    by_cases hc : p c <;> simp [List.dropWhile_cons, hc, ih]

theorem dropWhile_rev_comm (l : List Char) :
    ((l.reverse.dropWhile jsWs).reverse).dropWhile jsWs =
      ((l.dropWhile jsWs).reverse.dropWhile jsWs).reverse := by
  induction l with
  | nil => rfl
  | cons c l ih =>
    rw [dropTrailing_cons, List.dropWhile_cons]
    by_cases he : (l.reverse.dropWhile jsWs).isEmpty <;> by_cases hc : jsWs c
    · rw [List.isEmpty_iff, List.dropWhile_eq_nil_iff] at he
      have hall : List.dropWhile jsWs l = [] := by
        rw [List.dropWhile_eq_nil_iff]
        intro x hx
        exact he x (List.mem_reverse.mpr hx)
      have hrev : List.dropWhile jsWs l.reverse = [] := by
        rw [List.dropWhile_eq_nil_iff]
        exact he
      simp [hc, hall, hrev]
    · rw [List.isEmpty_iff] at he
      simp [hc, he, List.reverse_cons, List.dropWhile_append,
        List.dropWhile_cons]
    · simp [he, hc, List.dropWhile_cons, ih]
    · simp [he, hc, List.dropWhile_cons, List.dropWhile_append]

theorem trim_dropTrailing (l : List Char) :
    trimCL ((l.reverse.dropWhile jsWs).reverse) = trimCL l := by
  unfold trimCL
  rw [dropWhile_rev_comm, List.reverse_reverse, dropWhile_idem]
  exact dropWhile_rev_comm l

theorem dropWhile_jsWs_label (cat : DiffCat) (x : List Char) :
    List.dropWhile jsWs ((catLabel cat).data ++ x) = (catLabel cat).data ++ x := by
  cases cat <;>
    simp [catLabel, List.dropWhile_cons,
      show jsWs 'A' = false from rfl, show jsWs 'D' = false from rfl,
      show jsWs 'M' = false from rfl]

theorem diffRowMatch_render (cat : DiffCat) (digits cell : List Char)
    (hne : digits ≠ []) (hdig : digits.all Char.isDigit = true) :
    diffRowMatch (renderDiffRow cat digits cell) =
      some (cat, digits, (cell.reverse.dropWhile jsWs).reverse) := by
  have hde : digits.isEmpty = false := by simp [List.isEmpty_iff, hne]
  unfold renderDiffRow diffRowMatch
  simp only [List.cons_append, List.append_assoc, dropWhile_jsWs_bar,
    show isBar '│' = true from rfl, if_true, dropWhile_jsWs_label,
    matchCat_label, dropWhile_jsWs_digits digits _ hne hdig,
    takeWhile_digits_bar digits _ hdig, dropWhile_digits_bar digits _ hdig,
    hde, Bool.false_eq_true, if_false]
  unfold stripTailWsBarWs
  simp only [List.reverse_append, List.reverse_cons, List.reverse_nil,
    List.nil_append, List.singleton_append, List.dropWhile_cons,
    show jsWs '│' = false from rfl, Bool.false_eq_true, if_false,
    show isBar '│' = true from rfl, if_true]

theorem diffLineChanges_render (cat : DiffCat) (digits cell : List Char)
    (hne : digits ≠ []) (hdig : digits.all Char.isDigit = true) :
    diffLineChanges (renderDiffRow cat digits cell) =
      rowContribution cat digits cell := by
  unfold diffLineChanges rowContribution
  rw [diffRowMatch_render cat digits cell hne hdig]
  simp only [trim_dropTrailing]

theorem splitLinesAux_no_newline (l : List Char) :
    ∀ acc : List Char, ('\n' : Char) ∉ l →
      splitLinesAux acc l = [acc.reverse ++ l] := by
  induction l with
  | nil =>
    intro acc h
    simp [splitLinesAux]
  | cons c l ih =>
    intro acc h
    simp only [List.mem_cons, not_or] at h
    have hcne : ¬(c = '\n') := fun hc => h.1 hc.symm
    rw [splitLinesAux.eq_def]
    simp only [if_neg hcne]
    rw [ih (c :: acc) h.2]
    simp

theorem splitLinesCL_no_newline (l : List Char) (h : ('\n' : Char) ∉ l) :
    splitLinesCL l = [l] := by
  unfold splitLinesCL
  rw [splitLinesAux_no_newline l [] h]
  simp

theorem newline_not_in_render (cat : DiffCat) (digits cell : List Char)
    (hdig : digits.all Char.isDigit = true) (hnl : ('\n' : Char) ∉ cell) :
    ('\n' : Char) ∉ renderDiffRow cat digits cell := by
  intro hmem
  unfold renderDiffRow at hmem
  simp only [List.cons_append, List.append_assoc, List.mem_cons,
    List.mem_append, List.mem_singleton] at hmem
  rcases hmem with h | h | h | h | h | h | h
  · exact absurd h (by decide)
  · cases cat <;> revert h <;> simp [catLabel]
  · exact absurd h (by decide)
  · have hd := List.all_eq_true.mp hdig _ h
    exact absurd hd (by decide)
  · exact absurd h (by decide)
  · exact hnl h
  · exact absurd h (by decide)

theorem grab6_startsWithBar (l : List Char)
    (t : List Char × List Char × List Char × List Char × List Char × List Char)
    (h : grab6 l = some t) : startsWithBar l = true := by
  unfold grab6 at h
  unfold startsWithBar
  cases hd : l.dropWhile jsWs with
  | nil => rw [hd] at h; simp at h
  | cons c rest =>
    rw [hd] at h
    simp only at h ⊢
    by_cases hb : isBar c
    · exact hb
    · simp [hb] at h

theorem processLines_cont_append (ls : List (List Char)) :
    ∀ (b : Building) (rest : List (List Char)),
      (∀ l ∈ ls,
        (match grab6 l with
         | some (c1, _, _, _, _, _) => !isDigitsCL c1
         | none => false) = true) →
      processLines (some b) (ls ++ rest) =
        processLines (some (ls.foldl stepCont b)) rest := by
  induction ls with
  | nil => intro b rest _; rfl
  | cons l ls ih =>
    intro b rest h
    have hl := h l (List.mem_cons_self l ls)
    rcases hg : grab6 l with _ | ⟨c1, c2, c3, c4, c5, c6⟩
    · rw [hg] at hl; exact absurd hl (by simp)
    · rw [hg] at hl
      simp only [Bool.not_eq_true'] at hl
      rw [List.cons_append]
      simp only [processLines, hg, hl, Bool.false_eq_true, if_false,
        List.foldl_cons, stepCont]
      exact ih (contin b c3 c4 c5 c6) rest
        (fun x hx => h x (List.mem_cons_of_mem l hx))

theorem foldl_stepCont_id (ls : List (List Char)) :
    ∀ b : Building, (ls.foldl stepCont b).id = b.id := by
  induction ls with
  | nil => intro b; rfl
  | cons l ls ih =>
    intro b
    rw [List.foldl_cons, ih]
    unfold stepCont
    rcases grab6 l with _ | ⟨c1, c2, c3, c4, c5, c6⟩
    · rfl
    · rfl

theorem rowWFb_first (r : LogicalRow) (h : rowWFb r = true) :
    ∃ c1 c2 c3 c4 c5 c6, grab6 r.firstLine = some (c1, c2, c3, c4, c5, c6) ∧
      isDigitsCL c1 = true := by
  unfold rowWFb at h
  rcases hg : grab6 r.firstLine with _ | ⟨c1, c2, c3, c4, c5, c6⟩ <;>
    rw [hg] at h <;> simp at h
  exact ⟨c1, c2, c3, c4, c5, c6, rfl, h.1⟩

theorem processLines_rows (rows : List LogicalRow) :
    ∀ cur : Option Building, (∀ r ∈ rows, rowWFb r = true) →
      processLines cur ((rows.map rowLines).flatten) =
        flushOut cur ++ rows.map buildRow := by
  induction rows with
  | nil => intro cur _; simp [processLines]
  | cons r rows ih =>
    intro cur h
    have hr := h r (List.mem_cons_self r rows)
    obtain ⟨c1, c2, c3, c4, c5, c6, hg, hdig⟩ := rowWFb_first r hr
    have hcont : ∀ l ∈ r.contLines,
        (match grab6 l with
         | some (c1, _, _, _, _, _) => !isDigitsCL c1
         | none => false) = true := by
      unfold rowWFb at hr
      simp only [Bool.and_eq_true, List.all_eq_true] at hr
      exact hr.2
    simp only [List.map_cons, List.flatten_cons, rowLines, List.cons_append]
    simp only [processLines, hg, hdig, if_true]
    congr 1
    rw [processLines_cont_append r.contLines _ _ hcont,
      ih _ (fun x hx => h x (List.mem_cons_of_mem r hx))]
    unfold buildRow seedLine
    rw [hg]
    rfl

theorem buildRow_id (r : LogicalRow) (h : rowWFb r = true) :
    (buildRow r).id = rowIdN r := by
  obtain ⟨c1, c2, c3, c4, c5, c6, hg, hdig⟩ := rowWFb_first r h
  unfold buildRow rowIdN
  rw [hg]
  show (finalize (r.contLines.foldl stepCont (seedLine r.firstLine))).id =
    natOfDigits c1
  have h1 : (finalize (r.contLines.foldl stepCont (seedLine r.firstLine))).id =
      (r.contLines.foldl stepCont (seedLine r.firstLine)).id := rfl
  rw [h1, foldl_stepCont_id]
  unfold seedLine
  rw [hg]
  rfl

theorem filter_startsWithBar_rows (rows : List LogicalRow)
    (h : ∀ r ∈ rows, rowWFb r = true) :
    ((rows.map rowLines).flatten).filter startsWithBar =
      (rows.map rowLines).flatten := by
  rw [List.filter_eq_self]
  intro l hl
  rw [List.mem_flatten] at hl
  obtain ⟨s, hs, hls⟩ := hl
  rw [List.mem_map] at hs
  obtain ⟨r, hr, rfl⟩ := hs
  have hwf := h r hr
  rcases List.mem_cons.mp hls with rfl | hcont
  · obtain ⟨c1, c2, c3, c4, c5, c6, hg, _⟩ := rowWFb_first r hwf
    exact grab6_startsWithBar _ _ hg
  · unfold rowWFb at hwf
    simp only [Bool.and_eq_true, List.all_eq_true] at hwf
    have hx := hwf.2 l hcont
    rcases hg : grab6 l with _ | t
    · rw [hg] at hx; simp at hx
    · exact grab6_startsWithBar _ t hg

theorem mem_insertDesc (x y : SnapshotRow) (l : List SnapshotRow) :
    y ∈ insertDesc x l ↔ y = x ∨ y ∈ l := by
  induction l with
  | nil => simp [insertDesc]
  | cons z zs ih =>
    by_cases h : z.id < x.id
    · simp [insertDesc, h]
    · simp [insertDesc, h, ih]
      tauto

theorem pairwise_insertDesc (x : SnapshotRow) (l : List SnapshotRow)
    (h : l.Pairwise (fun p q => q.id ≤ p.id)) :
    (insertDesc x l).Pairwise (fun p q => q.id ≤ p.id) := by
  induction l with
  | nil => simp [insertDesc]
  | cons z zs ih =>
    rcases List.pairwise_cons.mp h with ⟨hz, hzs⟩
    by_cases hlt : z.id < x.id
    · simp only [insertDesc, hlt, if_true]
      refine List.pairwise_cons.mpr ⟨?_, h⟩
      intro q hq
      rcases List.mem_cons.mp hq with rfl | hq
      · exact le_of_lt hlt
      · exact le_trans (hz q hq) (le_of_lt hlt)
    · simp only [insertDesc, hlt, if_false]
      refine List.pairwise_cons.mpr ⟨?_, ih hzs⟩
      intro q hq
      rcases (mem_insertDesc x q zs).mp hq with rfl | hq
      · omega
      · exact hz q hq

theorem sortByIdDesc_pairwise (l : List SnapshotRow) :
    (sortByIdDesc l).Pairwise (fun p q => q.id ≤ p.id) := by
  induction l with
  | nil => simp [sortByIdDesc]
  | cons x xs ih => exact pairwise_insertDesc x _ ih

theorem mem_sortByIdDesc (y : SnapshotRow) (l : List SnapshotRow) :
    y ∈ sortByIdDesc l ↔ y ∈ l := by
  induction l with
  | nil => simp [sortByIdDesc]
  | cons x xs ih => simp [sortByIdDesc, mem_insertDesc, ih]


/-! ## Claim theorems -/

/-- Claim C1 (code bug): a reload started for the pair (1, 2) whose diff
command completes after `clearSelection` is applied anyway: `reloadFinish`
performs no comparison of the completed key against the current key, so the
parsed result resurrects stale data on the cleared state.  The claimed guard
does not exist in the code. -/
theorem clear_then_stale_reload_resurrects_changes :
    (reloadStart ⟨some 1, some 2, [], false, none⟩ (some "repo")).2 =
      ReloadAction.issue "1:2" 1 2 ∧
    clearSelection (reloadStart ⟨some 1, some 2, [], false, none⟩ (some "repo")).1 =
      ⟨none, none, [], false, none⟩ ∧
    (reloadFinish
        (clearSelection (reloadStart ⟨some 1, some 2, [], false, none⟩ (some "repo")).1)
        ⟨0, "│ Added │ 1 │ a.txt │", ""⟩).changes =
      [⟨"a.txt", Kind.A⟩] := by
  decide

/-- Claim C2: for every well-formed snapshot table text made of N logical
rows (a first line whose first cell is all digits, plus continuation lines
whose first cells are not), `parseTimelineFromCli` returns exactly N records
and the i-th record carries the integer of the i-th row first cell. -/
theorem parseSnapshotTable_row_count_ids (text : String) (rows : List LogicalRow)
    (hsplit : splitLinesCL text.data = (rows.map rowLines).flatten)
    (hwf : ∀ r ∈ rows, rowWFb r = true) :
    (parseTimelineFromCli text).length = rows.length ∧
    (parseTimelineFromCli text).map SnapshotRow.id = rows.map rowIdN := by
  unfold parseTimelineFromCli
  rw [hsplit, filter_startsWithBar_rows rows hwf,
    processLines_rows rows none hwf]
  constructor
  · simp [flushOut]
  · simp only [flushOut, List.nil_append, List.map_map]
    exact List.map_congr_left fun r hr => buildRow_id r (hwf r hr)

/-- Witness for C2 on a concrete two-row table whose second row wraps its
summary onto a continuation line. -/
theorem parseSnapshotTable_row_count_ids_witness :
    (parseTimelineFromCli wfTableText).length = 2 ∧
    (parseTimelineFromCli wfTableText).map SnapshotRow.id = [2, 1] := by
  have h := parseSnapshotTable_row_count_ids wfTableText wfTableRows
    (by decide) (by decide)
  exact ⟨h.1.trans (by decide), h.2.trans (by decide)⟩

/-- Claim C3: `refresh` resets to the empty state, for any prior state,
whenever the repository is unconfigured, the timeline command exits nonzero,
or an exception occurs during either command (the model is a total function,
so no exception propagates). -/
theorem refresh_resets_to_empty (prev : TimelineSt) (repo : Option String)
    (tRes sRes : Except String CliResult)
    (h : repo = none ∨ (∃ e, tRes = .error e) ∨
         (∃ r, tRes = .ok r ∧ r.code ≠ 0) ∨ (∃ e, sRes = .error e)) :
    refresh prev repo tRes sRes = emptyTimeline := by
  rcases h with h | ⟨e, h⟩ | ⟨r, h, hc⟩ | ⟨e, h⟩ <;> subst h
  · rfl
  · rcases repo with _ | rp
    · rfl
    · by_cases hrp : rp = "" <;> simp [refresh, hrp]
  · rcases repo with _ | rp
    · rfl
    · by_cases hrp : rp = "" <;> simp [refresh, hrp, hc]
  · rcases repo with _ | rp
    · rfl
    · rcases tRes with e2 | tr
      · by_cases hrp : rp = "" <;> simp [refresh, hrp]
      · by_cases hrp : rp = "" <;> by_cases h0 : tr.code = 0 <;>
          simp [refresh, hrp, h0]

/-- Witness for C3: a populated prior state is discarded when the timeline
command exits with code 1. -/
theorem refresh_resets_to_empty_witness :
    refresh ⟨[⟨5, none, "x", none, none, none⟩], some 5⟩ (some "repo")
      (.ok ⟨1, "", ""⟩) (.ok ⟨0, "", ""⟩) = emptyTimeline :=
  refresh_resets_to_empty _ _ _ _
    (Or.inr (Or.inr (Or.inl ⟨⟨1, "", ""⟩, rfl, by decide⟩)))

/-- Claim C4: every rendered diff-table row contributes exactly what the row
contract prescribes — nothing when the count is zero or the file cell is
empty or the placeholder, else one change per nonempty trimmed
comma-separated name — and the concrete example rows behave as claimed. -/
theorem diff_row_contract :
    (∀ (cat : DiffCat) (digits cell : List Char),
        digits ≠ [] → digits.all Char.isDigit = true → ('\n' : Char) ∉ cell →
        parseGitcrumbsDiff (String.mk (renderDiffRow cat digits cell)) =
          rowContribution cat digits cell) ∧
    parseGitcrumbsDiff "│ Added │ 2 │ a.txt, b.txt │" =
      [⟨"a.txt", Kind.A⟩, ⟨"b.txt", Kind.A⟩] ∧
    parseGitcrumbsDiff "│ Added │ 0 │ a.txt, b.txt │" = [] ∧
    parseGitcrumbsDiff "│ Deleted │ 3 │ (none) │" = [] ∧
    parseGitcrumbsDiff "│ Modified │ 2 │ │" = [] := by
  refine ⟨?_, by decide, by decide, by decide, by decide⟩
  intro cat digits cell hne hdig hnl
  unfold parseGitcrumbsDiff
  rw [show (String.mk (renderDiffRow cat digits cell)).data =
        renderDiffRow cat digits cell from rfl,
    splitLinesCL_no_newline _ (newline_not_in_render cat digits cell hdig hnl)]
  simp [diffLineChanges_render cat digits cell hne hdig]

theorem diff_row_contract_witness :
    parseGitcrumbsDiff (String.mk (renderDiffRow DiffCat.added ['2']
        " a.txt, b.txt ".data)) =
      rowContribution DiffCat.added ['2'] " a.txt, b.txt ".data ∧
    rowContribution DiffCat.added ['2'] " a.txt, b.txt ".data =
      [⟨"a.txt", Kind.A⟩, ⟨"b.txt", Kind.A⟩] :=
  ⟨diff_row_contract.1 DiffCat.added ['2'] " a.txt, b.txt ".data
      (by decide) (by decide) (by decide),
    by decide⟩

/-- Claim C5 counterexample: a successful reconcile whose status command
reports cursor id 2 while the timeline lists only id 1 publishes
`currentId = some 2` with no matching snapshot, so the claimed membership
invariant is false as stated. -/
theorem refresh_currentId_not_member :
    (refresh emptyTimeline (some "r")
        (.ok ⟨0, "│ 1 │ one │ 2025-01-01 00:00:00 │ main │ s │ │", ""⟩)
        (.ok ⟨0, "Cursor snapshot id: 2", ""⟩)).currentId = some 2 ∧
    (2 : Nat) ∉ (refresh emptyTimeline (some "r")
        (.ok ⟨0, "│ 1 │ one │ 2025-01-01 00:00:00 │ main │ s │ │", ""⟩)
        (.ok ⟨0, "Cursor snapshot id: 2", ""⟩)).snapshots.map SnapshotRow.id := by
  decide

/-- Claim C5, amended: after a successful reconcile the snapshots are sorted
by id descending, and `currentId`, if present, equals the id of some
published snapshot provided the id parsed from the status output occurs
among the parsed timeline ids (the code performs no cross-check between the
two command outputs). -/
theorem refresh_success_sorted_and_member (prev : TimelineSt) (rp : String)
    (tr sr : CliResult) (hrp : rp ≠ "") (hcode : tr.code = 0)
    (hmem : ∀ n, parseCurrentIdFromStatus sr.stdout = some n →
      n ∈ (parseTimelineFromCli tr.stdout).map SnapshotRow.id) :
    ((refresh prev (some rp) (.ok tr) (.ok sr)).snapshots).Pairwise
        (fun p q => q.id ≤ p.id) ∧
    ∀ n, (refresh prev (some rp) (.ok tr) (.ok sr)).currentId = some n →
      n ∈ ((refresh prev (some rp) (.ok tr) (.ok sr)).snapshots).map
            SnapshotRow.id := by
  have hre : refresh prev (some rp) (.ok tr) (.ok sr) =
      { snapshots := sortByIdDesc (parseTimelineFromCli tr.stdout)
        currentId := parseCurrentIdFromStatus sr.stdout } := by
    simp [refresh, hrp, hcode]
  rw [hre]
  constructor
  · exact sortByIdDesc_pairwise _
  · intro n hn
    have hm := hmem n hn
    simp only [List.mem_map] at hm ⊢
    rcases hm with ⟨s, hs, hid⟩
    exact ⟨s, (mem_sortByIdDesc s _).mpr hs, hid⟩

/-- Witness for the amended C5 on a consistent pair of command outputs. -/
theorem refresh_success_sorted_and_member_witness :
    ((refresh emptyTimeline (some "r")
        (.ok ⟨0, "│ 1 │ one │ 2025-01-01 00:00:00 │ main │ s │ │", ""⟩)
        (.ok ⟨0, "Cursor snapshot id: 1", ""⟩)).snapshots).Pairwise
        (fun p q => q.id ≤ p.id) ∧
    ∀ n, (refresh emptyTimeline (some "r")
        (.ok ⟨0, "│ 1 │ one │ 2025-01-01 00:00:00 │ main │ s │ │", ""⟩)
        (.ok ⟨0, "Cursor snapshot id: 1", ""⟩)).currentId = some n →
      n ∈ ((refresh emptyTimeline (some "r")
        (.ok ⟨0, "│ 1 │ one │ 2025-01-01 00:00:00 │ main │ s │ │", ""⟩)
        (.ok ⟨0, "Cursor snapshot id: 1", ""⟩)).snapshots).map SnapshotRow.id :=
  refresh_success_sorted_and_member emptyTimeline "r" _ _ (by decide) rfl
    (by intro n hn
        have h1 : some (1 : Nat) = some n := hn
        cases h1
        decide)

/-- Claim C6 (code bug): `Cli.runRaw` resolves a spawn failure to exit code
127 with empty stdout and nonempty stderr and resolves every close event
without throwing; but `Cli.run` registers no error handler, so a spawn
failure there surfaces as an unhandled error event instead of a 127
result. -/
theorem runRaw_error_shape_run_unhandled :
    (∀ bin : String,
      runRawModel bin .spawnError = ⟨127, "", "Failed to run " ++ bin⟩ ∧
      ("Failed to run " ++ bin) ≠ "") ∧
    (∀ (bin : String) (c : Option Int) (out err : String),
      runRawModel bin (.closed c out err) = ⟨c.getD 0, out, err⟩) ∧
    runModel .spawnError = RunBehavior.unhandledError := by
  refine ⟨fun bin => ⟨rfl, ?_⟩, fun _ _ _ _ => rfl, rfl⟩
  intro h
  have h2 := congrArg String.data h
  rw [String.data_append] at h2
  simp at h2

/-- Claim C7 (code bug): the tracking supervisor inspects whole data chunks,
not lines — one chunk carrying two sentinel lines fires a single
snapshot-created event where the per-line contract requires two. -/
theorem track_chunk_events :
    trackEventCount [twoSentinelChunk] = 1 ∧
    sentinelLineCount [twoSentinelChunk] = 2 := by
  decide

/-- Claim C8 counterexample: with a reload in flight for the pair (1, 2) but
the repository path unconfigured, a further reload call is not absorbed — it
clears `changes` and `loadKey` — so the claim as stated is false. -/
theorem reload_without_repo_changes_state :
    (reloadStart inFlightSt none).2 ≠ ReloadAction.noop ∧
    (reloadStart inFlightSt none).1.changes = [] ∧
    (reloadStart inFlightSt none).1 ≠ inFlightSt := by
  decide

/-- Claim C8, amended: when both endpoints are set to nonzero ids, a
repository path is configured and nonempty, and a reload is in flight for
the same composite key, a further reload call is absorbed: no command is
issued and the state is returned unchanged. -/
theorem reload_deduplicates_in_flight (s : DiffSt) (rp : String) (a b : Nat)
    (hrp : rp ≠ "") (ha : s.a = some a) (hb : s.b = some b)
    (ha0 : a ≠ 0) (hb0 : b ≠ 0) (hl : s.loading = true)
    (hk : s.loadKey = some (diffKey a b)) :
    reloadStart s (some rp) = (s, ReloadAction.noop) := by
  unfold reloadStart
  rw [ha, hb]
  simp [ha0, hb0, hrp, hl, hk]

/-- Witness for the amended C8 at the concrete in-flight state. -/
theorem reload_deduplicates_in_flight_witness :
    reloadStart inFlightSt (some "repo") = (inFlightSt, ReloadAction.noop) :=
  reload_deduplicates_in_flight inFlightSt "repo" 1 2 (by decide) rfl rfl
    (by decide) (by decide) rfl (by decide)

/-- Claim C9 counterexample: the timeline path parses the raw stdout, so a
text whose rows are wrapped in ANSI color sequences parses to no records
while its escape-stripped form parses to one — parsing is not invariant
under stripping on that path. -/
theorem timeline_parse_differs_on_ansi :
    parseTimelineFromCli escapedTimeline ≠
      parseTimelineFromCli (stripAnsi escapedTimeline) ∧
    parseTimelineFromCli escapedTimeline = [] ∧
    (parseTimelineFromCli (stripAnsi escapedTimeline)).map SnapshotRow.id = [1] := by
  decide

/-- Claim C9, amended: only the diff path strips ANSI sequences before
parsing — a successful reload publishes `parseGitcrumbsDiff (stripAnsi
stdout)` — while a successful refresh publishes the sorted parse of the raw
timeline stdout with no stripping. -/
theorem diff_path_strips_timeline_does_not (s : DiffSt) (res : CliResult)
    (h : res.code = 0) :
    (reloadFinish s res).changes = parseGitcrumbsDiff (stripAnsi res.stdout) ∧
    ∀ (prev : TimelineSt) (rp tOut sOut : String), rp ≠ "" →
      (refresh prev (some rp) (.ok ⟨0, tOut, ""⟩) (.ok ⟨0, sOut, ""⟩)).snapshots =
        sortByIdDesc (parseTimelineFromCli tOut) := by
  constructor
  · simp [reloadFinish, h]
  · intro prev rp tOut sOut hrp
    simp [refresh, hrp]

/-- Witness for the amended C9 at a concrete successful diff result. -/
theorem diff_path_strips_timeline_does_not_witness :
    (reloadFinish ⟨none, none, [], true, some "1:2"⟩
        ⟨0, "│ Added │ 1 │ a.txt │", ""⟩).changes =
      parseGitcrumbsDiff (stripAnsi "│ Added │ 1 │ a.txt │") :=
  (diff_path_strips_timeline_does_not ⟨none, none, [], true, some "1:2"⟩
    ⟨0, "│ Added │ 1 │ a.txt │", ""⟩ rfl).1

/-- Claim C10: an id of 0 is falsy in JavaScript, so `setA`/`setB` with an
argument coercing to 0 send reload down the unset branch — changes and the
load key are cleared and no command is issued — and no diff command is ever
issued with 0 as either endpoint. -/
theorem zero_id_means_unselected :
    (∀ (s : DiffSt) (repo : Option String) (item : ItemInput),
      coerceId item = some 0 →
        (setA s item repo).1.changes = [] ∧ (setA s item repo).1.loadKey = none ∧
        (setA s item repo).2 = ReloadAction.cleared) ∧
    (∀ (s : DiffSt) (repo : Option String) (item : ItemInput),
      coerceId item = some 0 →
        (setB s item repo).1.changes = [] ∧ (setB s item repo).1.loadKey = none ∧
        (setB s item repo).2 = ReloadAction.cleared) ∧
    (∀ (s : DiffSt) (repo : Option String) (k : String) (a b : Nat),
      (reloadStart s repo).2 = ReloadAction.issue k a b → a ≠ 0 ∧ b ≠ 0) := by
  refine ⟨?_, ?_, ?_⟩
  · intro s repo item h
    unfold setA reloadStart
    rw [h]
    rcases s.b with _ | b <;> simp
  · intro s repo item h
    unfold setB reloadStart
    rw [h]
    rcases s.a with _ | a <;> simp
  · intro s repo k a b h
    unfold reloadStart at h
    rcases hsa : s.a with _ | a0 <;> rw [hsa] at h
    · simp at h
    · rcases hsb : s.b with _ | b0 <;> rw [hsb] at h
      · simp at h
      · by_cases ha0 : a0 = 0
        · simp [ha0] at h
        · by_cases hb0 : b0 = 0
          · simp [ha0, hb0] at h
          · rcases repo with _ | rp
            · simp [ha0, hb0] at h
            · by_cases hrp : rp = ""
              · simp [ha0, hb0, hrp] at h
              · by_cases hdup : s.loading && s.loadKey = some (diffKey a0 b0)
                · simp [ha0, hb0, hrp, hdup] at h
                · simp [ha0, hb0, hrp, hdup] at h
                  obtain ⟨-, ha2, hb2⟩ := h
                  omega

/-- Witness for C10: `setA 0` on a populated state clears the changes. -/
theorem zero_id_means_unselected_witness :
    (setA ⟨some 3, some 4, [⟨"p", Kind.A⟩], false, some "3:4"⟩
        (ItemInput.rawNumber 0) (some "repo")).1.changes = [] :=
  ((zero_id_means_unselected).1 ⟨some 3, some 4, [⟨"p", Kind.A⟩], false, some "3:4"⟩
    (some "repo") (ItemInput.rawNumber 0) rfl).1


end Gitcrumbs
